import Mathlib

/-
Verification of the resume-listing page (src/page.tsx).

The page keeps a full collection of resume records, a derived filtered view
recomputed by four sequential criterion passes, a filter-mode selector, a
clear-filters action, an export-to-spreadsheet handler and a one-shot fetch
handler.  We embed those pieces as Lean functions and prove the documented
properties about them.

Records arrive as parsed JSON, so any field may be absent at runtime; fields
that the page reads are modelled as `Option` values.  A JavaScript TypeError
raised by reading a property of `undefined` is modelled as `Except.error ()`;
optional chaining (`?.`) is modelled by matching on the `Option` and treating
`none` as the falsy value `undefined`.
-/

/-- Prefix test on character lists: does the first list start with the second? -/
def startsWithL : List Char → List Char → Bool
  | _, [] => true
  | [], _ :: _ => false
  | c :: cs, d :: ds => c == d && startsWithL cs ds

/-- Substring occurrence on character lists. -/
def hasSubL : List Char → List Char → Bool
  | [], sub => startsWithL [] sub
  | c :: cs, sub => startsWithL (c :: cs) sub || hasSubL cs sub

/-- JavaScript `String.prototype.includes`: `strIncludes s sub` holds iff `sub`
occurs contiguously inside `s`. -/
def strIncludes (s sub : String) : Bool :=
  hasSubL s.toList sub.toList

/-- JavaScript `toLowerCase`, character by character.  (`String.toLower` in
core is defined through well-founded recursion, which does not reduce inside
the kernel; this structural version does.) -/
def jsToLower (s : String) : String :=
  String.mk (s.toList.map Char.toLower)

/-- personalInfo object of a record (src/page.tsx 26-31); every field may be
absent in malformed JSON. -/
structure PersonalInfo where
  name : Option String
  email : Option String
  phone : Option String
  location : Option String
deriving DecidableEq

/-- One education entry (src/page.tsx 32-37). -/
structure EducationEntry where
  degree : String
  institution : String
  year : String
  gpa : String
deriving DecidableEq

/-- One experience entry (src/page.tsx 38-43). -/
structure ExperienceEntry where
  title : Option String
  company : Option String
  duration : Option String
  responsibilities : List String
deriving DecidableEq

/-- One project entry (src/page.tsx 44-48). -/
structure ProjectEntry where
  name : String
  description : String
  technologies : List String
deriving DecidableEq

/-- A resume record (interface ResumeData, src/page.tsx 25-52).  The fields
the filter engine dereferences are `Option` so that absent JSON fields can be
expressed. -/
structure ResumeData where
  personalInfo : Option PersonalInfo
  education : List EducationEntry
  experience : Option (List ExperienceEntry)
  projects : List ProjectEntry
  skills : Option (List String)
  certifications : List String
  fileUrl : String
deriving DecidableEq

/-- Search-term predicate (src/page.tsx 86-91).  Name and email are read
through optional chaining, so their absence is falsy; `resume?.skills.some`
dereferences `skills` without optional chaining and throws when it is absent.
The JavaScript `||` short-circuits, so a name or email hit avoids the skills
access.  `term` is the already-lowercased search term. -/
def searchPred (term : String) (r : ResumeData) : Except Unit Bool :=
  let nameHit :=
    match r.personalInfo with
    | none => false
    | some p =>
      match p.name with
      | none => false
      | some n => strIncludes (jsToLower n) term
  let emailHit :=
    match r.personalInfo with
    | none => false
    | some p =>
      match p.email with
      | none => false
      | some e => strIncludes (jsToLower e) term
  if nameHit || emailHit then Except.ok true
  else
    match r.skills with
    | none => Except.error ()
    | some ss => Except.ok (ss.any fun skill => strIncludes (jsToLower skill) term)

/-- Skill-filter predicate (src/page.tsx 96-100): `resume.skills.some(...)`
throws when `skills` is absent. -/
def skillPred (f : String) (r : ResumeData) : Except Unit Bool :=
  match r.skills with
  | none => Except.error ()
  | some ss => Except.ok (ss.any fun skill => strIncludes (jsToLower skill) (jsToLower f))

/-- Location-filter predicate (src/page.tsx 105-109):
`resume.personalInfo.location?...` dereferences `personalInfo` without
optional chaining (throws when absent) but reads `location` through optional
chaining (absent is falsy, hence non-matching). -/
def locationPred (f : String) (r : ResumeData) : Except Unit Bool :=
  match r.personalInfo with
  | none => Except.error ()
  | some p =>
    match p.location with
    | none => Except.ok false
    | some loc => Except.ok (strIncludes (jsToLower loc) (jsToLower f))

/-- Per-entry experience test (src/page.tsx 116-119): `exp.title.toLowerCase()`
throws when `title` is absent; `||` short-circuits, so `company` is only read
when the title does not match. -/
def expEntryPred (f : String) (e : ExperienceEntry) : Except Unit Bool :=
  match e.title with
  | none => Except.error ()
  | some t =>
    if strIncludes (jsToLower t) (jsToLower f) then Except.ok true
    else
      match e.company with
      | none => Except.error ()
      | some c => Except.ok (strIncludes (jsToLower c) (jsToLower f))

/-- JavaScript `Array.prototype.some` under a throwing predicate: evaluate
left to right, stop at the first `true`, propagate the first exception. -/
def anyE {α : Type} (p : α → Except Unit Bool) : List α → Except Unit Bool
  | [] => Except.ok false
  | x :: xs =>
    match p x with
    | Except.error e => Except.error e
    | Except.ok true => Except.ok true
    | Except.ok false => anyE p xs

/-- Experience-filter predicate (src/page.tsx 114-121):
`resume.experience.some(...)` throws when `experience` is absent. -/
def experiencePred (f : String) (r : ResumeData) : Except Unit Bool :=
  match r.experience with
  | none => Except.error ()
  | some es => anyE (expEntryPred f) es

/-- JavaScript `Array.prototype.filter` under a throwing predicate: evaluate
the predicate on every element in order, propagate the first exception, keep
the elements for which it returned a truthy value. -/
def filterE {α : Type} (p : α → Except Unit Bool) : List α → Except Unit (List α)
  | [] => Except.ok []
  | x :: xs =>
    match p x with
    | Except.error e => Except.error e
    | Except.ok b =>
      match filterE p xs with
      | Except.error e => Except.error e
      | Except.ok rest => Except.ok (if b then x :: rest else rest)

/-- One guarded pass of the recomputation: `if (criterion) filtered =
filtered.filter(pred)` — the pass runs only when the criterion string is
truthy, i.e. non-empty. -/
def stageFilter (active : Bool) (p : ResumeData → Except Unit Bool)
    (l : List ResumeData) : Except Unit (List ResumeData) :=
  if active then filterE p l else Except.ok l

/-- The filter-recomputation effect (src/page.tsx 80-124): starting from the
full collection, apply the search, skill, location and experience passes in
that order, each only when its criterion string is non-empty.  The search term
is lowercased once before the pass, matching `const term =
searchTerm.toLowerCase()`. -/
def applyFilters (resumes : List ResumeData)
    (searchTerm skillFilter locationFilter experienceFilter : String) :
    Except Unit (List ResumeData) :=
  (stageFilter (searchTerm != "") (searchPred (jsToLower searchTerm)) resumes).bind fun f1 =>
  (stageFilter (skillFilter != "") (skillPred skillFilter) f1).bind fun f2 =>
  (stageFilter (locationFilter != "") (locationPred locationFilter) f2).bind fun f3 =>
  stageFilter (experienceFilter != "") (experiencePred experienceFilter) f3

/-- Case-insensitive hit of `term` inside a possibly-absent string; absence is
non-matching. -/
def optHit (o : Option String) (term : String) : Bool :=
  match o with
  | none => false
  | some s => strIncludes (jsToLower s) term

/-- Total search criterion (name OR email OR any skill contains the lowered
term); absent fields are non-matching. -/
def searchHit (term : String) (r : ResumeData) : Bool :=
  optHit (r.personalInfo.bind PersonalInfo.name) term ||
  optHit (r.personalInfo.bind PersonalInfo.email) term ||
  (r.skills.getD []).any (fun skill => strIncludes (jsToLower skill) term)

/-- Total skill criterion: some skill contains the filter string. -/
def skillHit (f : String) (r : ResumeData) : Bool :=
  (r.skills.getD []).any (fun skill => strIncludes (jsToLower skill) (jsToLower f))

/-- Total location criterion: the location contains the filter string. -/
def locationHit (f : String) (r : ResumeData) : Bool :=
  optHit (r.personalInfo.bind PersonalInfo.location) (jsToLower f)

/-- Total per-entry experience criterion: title OR company contains the
filter string. -/
def expEntryHit (f : String) (e : ExperienceEntry) : Bool :=
  optHit e.title (jsToLower f) || optHit e.company (jsToLower f)

/-- Total experience criterion: some experience entry matches. -/
def experienceHit (f : String) (r : ResumeData) : Bool :=
  (r.experience.getD []).any (expEntryHit f)

/-- The filter algorithm as the specification words it: all active criteria
apply conjunctively to each record, with case-insensitive substring matching;
an empty criterion string is inactive and constrains nothing. -/
def specPass (searchTerm skillFilter locationFilter experienceFilter : String)
    (r : ResumeData) : Bool :=
  (searchTerm == "" || searchHit (jsToLower searchTerm) r) &&
  (skillFilter == "" || skillHit skillFilter r) &&
  (locationFilter == "" || locationHit locationFilter r) &&
  (experienceFilter == "" || experienceHit experienceFilter r)

/-- An experience entry whose title and company are present. -/
def wfEntry (e : ExperienceEntry) : Bool :=
  e.title.isSome && e.company.isSome

/-- A record that conforms to the data model: the fields the filter engine
dereferences without optional chaining (personalInfo, skills, experience and
each entry title and company) are present.  name, email and location may
still be absent — they are only read through optional chaining. -/
def wfResume (r : ResumeData) : Bool :=
  r.personalInfo.isSome && r.skills.isSome &&
  (match r.experience with
   | none => false
   | some es => es.all wfEntry)

/-- The page component state (src/page.tsx 55-61). -/
structure PageState where
  resumes : List ResumeData
  filteredResumes : List ResumeData
  searchTerm : String
  filterType : String
  skillFilter : String
  locationFilter : String
  experienceFilter : String
deriving DecidableEq

/-- The initial state of the page: empty collections, empty criteria, filter
mode "all". -/
def initState : PageState :=
  { resumes := [], filteredResumes := [], searchTerm := "", filterType := "all",
    skillFilter := "", locationFilter := "", experienceFilter := "" }

/-- The filter useEffect as a state transformer: recompute `filteredResumes`
from `resumes` and the four criterion strings. -/
def recomputeFiltered (s : PageState) : Except Unit PageState :=
  match applyFilters s.resumes s.searchTerm s.skillFilter s.locationFilter
      s.experienceFilter with
  | Except.error e => Except.error e
  | Except.ok f => Except.ok { s with filteredResumes := f }

/-- clearFilters handler (src/page.tsx 127-133). -/
def clearFilters (s : PageState) : PageState :=
  { s with
    searchTerm := "", skillFilter := "", locationFilter := "",
    experienceFilter := "", filterType := "all" }

/-- handleFilterTypeChange handler (src/page.tsx 136-144). -/
def handleFilterTypeChange (s : PageState) (value : String) : PageState :=
  let s1 := { s with filterType := value }
  if value == "all" then
    { s1 with skillFilter := "", locationFilter := "", experienceFilter := "" }
  else s1

/-- A toast notification as issued by the `toast` hook. -/
structure ToastMsg where
  title : String
  description : String
  variant : Option String
deriving DecidableEq

/-- Result of running the fetchResumes handler: the next state, the console
error log entries, and any user-facing toasts (the handler issues none). -/
structure FetchResult where
  state : PageState
  consoleErrors : List String
  toasts : List ToastMsg
deriving DecidableEq

/-- fetchResumes handler (src/page.tsx 64-78).  The network outcome is a
parameter: `Except.error msg` models a failed fetch, a non-ok response or a
JSON parse failure; `Except.ok data` models a response whose body parsed to
`data`.  On success both collections are set to the data; on failure the
error is logged to the console and nothing else happens. -/
def fetchResumes (s : PageState) (response : Except String (List ResumeData)) :
    FetchResult :=
  match response with
  | Except.ok data =>
    { state := { s with resumes := data, filteredResumes := data },
      consoleErrors := [], toasts := [] }
  | Except.error e =>
    { state := s, consoleErrors := ["Error fetching resumes: " ++ e],
      toasts := [] }

/-- One flat spreadsheet row, one per exported resume. -/
structure ExcelRow where
  name : String
  email : String
  phone : String
  location : String
  education : String
  experience : String
  projects : String
  skills : String
  certifications : String
  fileUrl : String
deriving DecidableEq

/-- Join a list of display strings into one cell. -/
def joinCell (ss : List String) : String :=
  String.intercalate ", " ss

/-- Modelled from the spec: flattening one record into a row.  The function
`prepareResumeDataForExcel` is imported from `@/lib/excel`, which is not among
the source files under review; per the spec it transforms each visible record
into one flat tabular row, with nested lists flattened to display strings and
absent fields rendered as empty text. -/
def flattenResume (r : ResumeData) : ExcelRow :=
  { name := (r.personalInfo.bind PersonalInfo.name).getD ""
  , email := (r.personalInfo.bind PersonalInfo.email).getD ""
  , phone := (r.personalInfo.bind PersonalInfo.phone).getD ""
  , location := (r.personalInfo.bind PersonalInfo.location).getD ""
  , education := joinCell (r.education.map fun e => e.degree ++ " - " ++ e.institution)
  , experience := joinCell ((r.experience.getD []).map fun e =>
      (e.title.getD "") ++ " at " ++ (e.company.getD ""))
  , projects := joinCell (r.projects.map ProjectEntry.name)
  , skills := joinCell (r.skills.getD [])
  , certifications := joinCell r.certifications
  , fileUrl := r.fileUrl }

/-- Modelled from the spec: `prepareResumeDataForExcel` maps the visible
records to flat rows, one row per resume, preserving order. -/
def prepareResumeDataForExcel (rs : List ResumeData) : List ExcelRow :=
  rs.map flattenResume

/-- Observable effects of the export handler, in the order they happen. -/
inductive ExportEffect where
  | toastShown (t : ToastMsg)
  | excelFile (rows : List ExcelRow) (filename : String) (sheetName : String)
deriving DecidableEq

/-- handleExport handler (src/page.tsx 147-167): with an empty filtered view,
show the destructive "No Data" toast and stop; otherwise hand the flattened
rows to the spreadsheet writer with filename `all-resumes.xlsx` and sheet
name `Resumes`, then show the success toast carrying the row count. -/
def handleExport (filteredResumes : List ResumeData) : List ExportEffect :=
  if filteredResumes.length = 0 then
    [ExportEffect.toastShown
      { title := "No Data", description := "There is no data to export.",
        variant := some "destructive" }]
  else
    [ExportEffect.excelFile (prepareResumeDataForExcel filteredResumes)
      "all-resumes.xlsx" "Resumes",
     ExportEffect.toastShown
      { title := "Success",
        description := "Successfully exported " ++
          toString filteredResumes.length ++ " resumes to Excel.",
        variant := none }]

/-- One of the four filter criteria. -/
inductive Crit where
  | search
  | skill
  | location
  | experience
deriving DecidableEq

/-- The four criterion strings bundled as one configuration. -/
structure Criteria where
  searchTerm : String
  skillFilter : String
  locationFilter : String
  experienceFilter : String
deriving DecidableEq

/-- The recomputation applied to a criteria configuration. -/
def applyCriteria (cr : Criteria) (C : List ResumeData) :
    Except Unit (List ResumeData) :=
  applyFilters C cr.searchTerm cr.skillFilter cr.locationFilter
    cr.experienceFilter

/-- Read one criterion string from a configuration. -/
def getCrit : Crit → Criteria → String
  | Crit.search, cr => cr.searchTerm
  | Crit.skill, cr => cr.skillFilter
  | Crit.location, cr => cr.locationFilter
  | Crit.experience, cr => cr.experienceFilter

/-- Replace one criterion string in a configuration. -/
def setCrit : Crit → String → Criteria → Criteria
  | Crit.search, v, cr => { cr with searchTerm := v }
  | Crit.skill, v, cr => { cr with skillFilter := v }
  | Crit.location, v, cr => { cr with locationFilter := v }
  | Crit.experience, v, cr => { cr with experienceFilter := v }

/-- The total hit test belonging to one criterion. -/
def critHit : Crit → String → ResumeData → Bool
  | Crit.search, v, r => searchHit (jsToLower v) r
  | Crit.skill, v, r => skillHit v r
  | Crit.location, v, r => locationHit v r
  | Crit.experience, v, r => experienceHit v r

/-- The conjunctive spec filter applied to a configuration. -/
def specPassC (cr : Criteria) (r : ResumeData) : Bool :=
  specPass cr.searchTerm cr.skillFilter cr.locationFilter cr.experienceFilter r

/-- The worked example of the spec: Ann Lee, skills Go and SQL, one
engineering experience entry at Acme, located in Austin. -/
def annResume : ResumeData :=
  { personalInfo := some
      { name := some "Ann Lee"
      , email := some "a@x.com"
      , phone := some "555"
      , location := some "Austin" }
  , education := []
  , experience := some
      [{ title := some "Engineer"
       , company := some "Acme"
       , duration := some "2y"
       , responsibilities := [] }]
  , projects := []
  , skills := some ["Go", "SQL"]
  , certifications := []
  , fileUrl := "u" }

/-- A malformed record whose personalInfo object is entirely absent. -/
def rNoPersonalInfo : ResumeData :=
  { personalInfo := none
  , education := []
  , experience := some []
  , projects := []
  , skills := some ["Go"]
  , certifications := []
  , fileUrl := "" }

/-- A record conforming to the data model except that its optional location
(and phone) text fields are absent. -/
def rNoLocation : ResumeData :=
  { personalInfo := some
      { name := some "Bob Roe"
      , email := some "b@x.com"
      , phone := none
      , location := none }
  , education := []
  , experience := some
      [{ title := some "Analyst"
       , company := some "Initech"
       , duration := some "1y"
       , responsibilities := [] }]
  , projects := []
  , skills := some ["Python"]
  , certifications := []
  , fileUrl := "v" }

/-- An `Except.ok` result of `filterE` is a sublist of the input. -/
theorem filterE_ok_sublist {α : Type} (p : α → Except Unit Bool)
    (l : List α) : ∀ out, filterE p l = Except.ok out → out.Sublist l := by
  induction l with
  | nil =>
    intro out h
    simp only [filterE] at h
    injection h with h
    subst h
    exact List.Sublist.refl _
  | cons x xs ih =>
    intro out h
    simp only [filterE] at h
    cases hp : p x with
    | error e => rw [hp] at h; exact absurd h (by simp)
    | ok b =>
      rw [hp] at h
      cases hr : filterE p xs with
      | error e => rw [hr] at h; exact absurd h (by simp)
      | ok rest =>
        rw [hr] at h
        injection h with h
        subst h
        cases b with
        | false => exact List.Sublist.cons x (ih rest hr)
        | true => exact List.Sublist.cons₂ x (ih rest hr)

/-- An `Except.ok` result of a guarded pass is a sublist of the input. -/
theorem stageFilter_ok_sublist (b : Bool) (p : ResumeData → Except Unit Bool)
    (l out : List ResumeData) (h : stageFilter b p l = Except.ok out) :
    out.Sublist l := by
  cases b with
  | false =>
    simp only [stageFilter, Bool.false_eq_true, if_false] at h
    injection h with h
    subst h
    exact List.Sublist.refl _
  | true =>
    simp only [stageFilter, if_true] at h
    exact filterE_ok_sublist p l out h

/-- Whenever the recomputation succeeds, its result is an order-preserving
sublist of the input collection. -/
theorem applyFilters_ok_sublist (C : List ResumeData) (st sk lo ex : String)
    (out : List ResumeData) (h : applyFilters C st sk lo ex = Except.ok out) :
    out.Sublist C := by
  unfold applyFilters at h
  cases h1 : stageFilter (st != "") (searchPred (jsToLower st)) C with
  | error e => rw [h1] at h; exact absurd h (by simp [Except.bind])
  | ok f1 =>
    rw [h1] at h
    simp only [Except.bind] at h
    cases h2 : stageFilter (sk != "") (skillPred sk) f1 with
    | error e => rw [h2] at h; exact absurd h (by simp [Except.bind])
    | ok f2 =>
      rw [h2] at h
      simp only [Except.bind] at h
      cases h3 : stageFilter (lo != "") (locationPred lo) f2 with
      | error e => rw [h3] at h; exact absurd h (by simp [Except.bind])
      | ok f3 =>
        rw [h3] at h
        simp only [Except.bind] at h
        exact ((stageFilter_ok_sublist _ _ _ _ h).trans
          (stageFilter_ok_sublist _ _ _ _ h3)).trans
          ((stageFilter_ok_sublist _ _ _ _ h2).trans
            (stageFilter_ok_sublist _ _ _ _ h1))

theorem exceptIfOr (a b : Bool) :
    (if a then Except.ok true else (Except.ok b : Except Unit Bool)) =
      Except.ok (a || b) := by
  cases a <;> rfl

theorem wfResume_personalInfo {r : ResumeData} (h : wfResume r = true) :
    r.personalInfo.isSome = true := by
  simp only [wfResume, Bool.and_eq_true] at h
  exact h.1.1

theorem wfResume_skills {r : ResumeData} (h : wfResume r = true) :
    r.skills.isSome = true := by
  simp only [wfResume, Bool.and_eq_true] at h
  exact h.1.2

theorem wfResume_experience {r : ResumeData} (h : wfResume r = true) :
    ∃ es, r.experience = some es ∧ es.all wfEntry = true := by
  simp only [wfResume, Bool.and_eq_true] at h
  have h3 := h.2
  cases he : r.experience with
  | none => rw [he] at h3; exact absurd h3 (by simp)
  | some es => rw [he] at h3; exact ⟨es, rfl, h3⟩

/-- On a record whose skills list is present, the search pass computes the
total search criterion. -/
theorem searchPred_wf (term : String) (r : ResumeData)
    (hsk : r.skills.isSome = true) :
    searchPred term r = Except.ok (searchHit term r) := by
  obtain ⟨ss, hs⟩ := Option.isSome_iff_exists.mp hsk
  cases hpi : r.personalInfo with
  | none =>
    simp [searchPred, searchHit, hpi, hs, optHit, exceptIfOr]
  | some p =>
    cases hn : p.name with
    | none =>
      cases he : p.email with
      | none =>
        simp [searchPred, searchHit, hpi, hs, hn, he, optHit, exceptIfOr]
      | some e =>
        simp [searchPred, searchHit, hpi, hs, hn, he, optHit, exceptIfOr,
          Bool.or_assoc]
    | some n =>
      cases he : p.email with
      | none =>
        cases hA : strIncludes (jsToLower n) term <;>
          simp [searchPred, searchHit, hpi, hs, hn, he, optHit, hA]
      | some e =>
        cases hA : strIncludes (jsToLower n) term <;>
          cases hB : strIncludes (jsToLower e) term <;>
            simp [searchPred, searchHit, hpi, hs, hn, he, optHit, hA, hB]

/-- On a record whose skills list is present, the skill pass computes the
total skill criterion. -/
theorem skillPred_wf (f : String) (r : ResumeData)
    (hsk : r.skills.isSome = true) :
    skillPred f r = Except.ok (skillHit f r) := by
  obtain ⟨ss, hs⟩ := Option.isSome_iff_exists.mp hsk
  simp [skillPred, skillHit, hs]

/-- On a record whose personalInfo is present, the location pass computes the
total location criterion (an absent location is non-matching, not an error). -/
theorem locationPred_wf (f : String) (r : ResumeData)
    (hpi : r.personalInfo.isSome = true) :
    locationPred f r = Except.ok (locationHit f r) := by
  obtain ⟨p, hp⟩ := Option.isSome_iff_exists.mp hpi
  cases hl : p.location with
  | none => simp [locationPred, locationHit, hp, hl, optHit]
  | some loc => simp [locationPred, locationHit, hp, hl, optHit]

/-- On an entry with title and company present, the per-entry test computes
the total per-entry criterion. -/
theorem expEntryPred_wf (f : String) (e : ExperienceEntry)
    (h : wfEntry e = true) :
    expEntryPred f e = Except.ok (expEntryHit f e) := by
  simp only [wfEntry, Bool.and_eq_true] at h
  obtain ⟨t, ht⟩ := Option.isSome_iff_exists.mp h.1
  obtain ⟨c, hc⟩ := Option.isSome_iff_exists.mp h.2
  simp [expEntryPred, expEntryHit, ht, hc, optHit, exceptIfOr]

/-- `anyE` under a never-throwing predicate computes `List.any`. -/
theorem anyE_wf {α : Type} (p : α → Except Unit Bool) (q : α → Bool)
    (l : List α) (h : ∀ x ∈ l, p x = Except.ok (q x)) :
    anyE p l = Except.ok (l.any q) := by
  induction l with
  | nil => rfl
  | cons x xs ih =>
    have hx := h x (List.mem_cons_self x xs)
    have ihh := ih fun y hy => h y (List.mem_cons_of_mem x hy)
    cases hq : q x with
    | true => rw [hq] at hx; simp [anyE, hx, hq]
    | false => rw [hq] at hx; simp [anyE, hx, hq, ihh]

/-- On a record with experience present and well-formed entries, the
experience pass computes the total experience criterion. -/
theorem experiencePred_wf (f : String) (r : ResumeData)
    (hex : ∃ es, r.experience = some es ∧ es.all wfEntry = true) :
    experiencePred f r = Except.ok (experienceHit f r) := by
  obtain ⟨es, he, hall⟩ := hex
  have : anyE (expEntryPred f) es = Except.ok (es.any (expEntryHit f)) := by
    refine anyE_wf _ _ _ fun e hm => ?_
    exact expEntryPred_wf f e (by
      have := List.all_eq_true.mp hall e hm
      exact this)
  simp [experiencePred, experienceHit, he, this]

/-- `filterE` under a never-throwing predicate computes `List.filter`. -/
theorem filterE_wf {α : Type} (p : α → Except Unit Bool) (q : α → Bool)
    (l : List α) (h : ∀ x ∈ l, p x = Except.ok (q x)) :
    filterE p l = Except.ok (l.filter q) := by
  induction l with
  | nil => rfl
  | cons x xs ih =>
    have hx := h x (List.mem_cons_self x xs)
    have ihh := ih fun y hy => h y (List.mem_cons_of_mem x hy)
    cases hq : q x with
    | true => rw [hq] at hx; simp [filterE, hx, ihh, List.filter_cons, hq]
    | false => rw [hq] at hx; simp [filterE, hx, ihh, List.filter_cons, hq]

/-- A guarded pass under a never-throwing predicate computes the filter by
the guarded criterion: inactive (empty string) keeps everything. -/
theorem stageFilter_wf (s : String) (p : ResumeData → Except Unit Bool)
    (q : ResumeData → Bool) (l : List ResumeData)
    (h : ∀ x ∈ l, p x = Except.ok (q x)) :
    stageFilter (s != "") p l =
      Except.ok (l.filter fun r => s == "" || q r) := by
  by_cases hs : s = ""
  · subst hs
    simp [stageFilter]
  · have hb : (s != "") = true := by simp [bne, hs]
    have hbeq : (s == "") = false := by simp [hs]
    rw [hb]
    simp only [stageFilter, if_true]
    rw [filterE_wf p q l h]
    simp [hbeq]

/-- Main refinement lemma: on a collection of records that conform to the
data model, the four sequential passes never throw and compute exactly one
conjunctive filter of the full collection by the active criteria. -/
theorem applyFilters_wf (C : List ResumeData) (st sk lo ex : String)
    (h : ∀ r ∈ C, wfResume r = true) :
    applyFilters C st sk lo ex =
      Except.ok (C.filter (specPass st sk lo ex)) := by
  have h1 : stageFilter (st != "") (searchPred (jsToLower st)) C =
      Except.ok (C.filter fun r => st == "" || searchHit (jsToLower st) r) :=
    stageFilter_wf _ _ _ _
      (fun x hx => searchPred_wf _ x (wfResume_skills (h x hx)))
  have hw1 : ∀ r ∈ (C.filter fun r => st == "" || searchHit (jsToLower st) r),
      wfResume r = true :=
    fun r hr => h r (List.mem_filter.mp hr).1
  have h2 : stageFilter (sk != "") (skillPred sk)
        (C.filter fun r => st == "" || searchHit (jsToLower st) r) =
      Except.ok ((C.filter fun r => st == "" || searchHit (jsToLower st) r).filter
        fun r => sk == "" || skillHit sk r) :=
    stageFilter_wf _ _ _ _
      (fun x hx => skillPred_wf _ x (wfResume_skills (hw1 x hx)))
  have hw2 : ∀ r ∈ ((C.filter fun r => st == "" || searchHit (jsToLower st) r).filter
      fun r => sk == "" || skillHit sk r), wfResume r = true :=
    fun r hr => hw1 r (List.mem_filter.mp hr).1
  have h3 : stageFilter (lo != "") (locationPred lo)
        ((C.filter fun r => st == "" || searchHit (jsToLower st) r).filter
          fun r => sk == "" || skillHit sk r) =
      Except.ok (((C.filter fun r => st == "" || searchHit (jsToLower st) r).filter
        fun r => sk == "" || skillHit sk r).filter
          fun r => lo == "" || locationHit lo r) :=
    stageFilter_wf _ _ _ _
      (fun x hx => locationPred_wf _ x (wfResume_personalInfo (hw2 x hx)))
  have hw3 : ∀ r ∈ (((C.filter fun r => st == "" || searchHit (jsToLower st) r).filter
      fun r => sk == "" || skillHit sk r).filter
        fun r => lo == "" || locationHit lo r), wfResume r = true :=
    fun r hr => hw2 r (List.mem_filter.mp hr).1
  have h4 : stageFilter (ex != "") (experiencePred ex)
        (((C.filter fun r => st == "" || searchHit (jsToLower st) r).filter
          fun r => sk == "" || skillHit sk r).filter
            fun r => lo == "" || locationHit lo r) =
      Except.ok ((((C.filter fun r => st == "" || searchHit (jsToLower st) r).filter
        fun r => sk == "" || skillHit sk r).filter
          fun r => lo == "" || locationHit lo r).filter
            fun r => ex == "" || experienceHit ex r) :=
    stageFilter_wf _ _ _ _
      (fun x hx => experiencePred_wf _ x (wfResume_experience (hw3 x hx)))
  unfold applyFilters
  rw [h1]
  simp only [Except.bind]
  rw [h2]
  simp only [Except.bind]
  rw [h3]
  simp only [Except.bind]
  rw [h4]
  congr 1
  rw [List.filter_filter, List.filter_filter, List.filter_filter]
  refine List.filter_congr fun x hx => ?_
  simp only [specPass]
  cases hb1 : (st == "" || searchHit (jsToLower st) x) <;>
    cases hb2 : (sk == "" || skillHit sk x) <;>
      cases hb3 : (lo == "" || locationHit lo x) <;>
        cases hb4 : (ex == "" || experienceHit ex x) <;> rfl

/-- With all criterion strings empty every pass is skipped and the
recomputation returns the collection unchanged. -/
theorem applyFilters_empty (C : List ResumeData) :
    applyFilters C "" "" "" "" = Except.ok C := rfl

/-- Setting a previously-empty criterion to a non-empty value multiplies the
conjunctive spec filter by the hit test of that criterion. -/
theorem specPass_setCrit (cr : Criteria) (c : Crit) (v : String)
    (hempty : getCrit c cr = "") (hv : v ≠ "") (r : ResumeData) :
    specPassC (setCrit c v cr) r = (specPassC cr r && critHit c v r) := by
  obtain ⟨a, b, l, e⟩ := cr
  have hbeqv : (v == "") = false := by simp [hv]
  cases c with
  | search =>
    have ha : a = "" := hempty
    subst ha
    simp [specPassC, specPass, setCrit, critHit, hbeqv, Bool.and_assoc,
      Bool.and_comm, Bool.and_left_comm]
  | skill =>
    have hb : b = "" := hempty
    subst hb
    simp [specPassC, specPass, setCrit, critHit, hbeqv, Bool.and_assoc,
      Bool.and_comm, Bool.and_left_comm]
  | location =>
    have hl : l = "" := hempty
    subst hl
    simp [specPassC, specPass, setCrit, critHit, hbeqv, Bool.and_assoc,
      Bool.and_comm, Bool.and_left_comm]
  | experience =>
    have he : e = "" := hempty
    subst he
    simp [specPassC, specPass, setCrit, critHit, hbeqv, Bool.and_assoc,
      Bool.and_comm, Bool.and_left_comm]

/-- C1: for every collection of records conforming to the data model, the
filter recomputation applies the four criteria conjunctively starting from
the full collection with case-insensitive substring matching — a non-empty
search term keeps records whose name OR email OR any skill contains it, a
non-empty skill filter keeps records where any skill contains it, a
non-empty location filter keeps records whose location contains it, a
non-empty experience filter keeps records where some experience entry title
OR company contains it — and the result of applying all active filters in
that order is the filtered view. -/
theorem filter_recompute_is_conjunctive_filter (C : List ResumeData)
    (st sk lo ex : String) (h : ∀ r ∈ C, wfResume r = true) :
    applyFilters C st sk lo ex =
      Except.ok (C.filter (specPass st sk lo ex)) :=
  applyFilters_wf C st sk lo ex h

theorem filter_recompute_is_conjunctive_filter_witness :
    applyFilters [annResume, rNoLocation] "ann" "" "" "" =
      Except.ok ([annResume, rNoLocation].filter (specPass "ann" "" "" "")) :=
  filter_recompute_is_conjunctive_filter [annResume, rNoLocation]
    "ann" "" "" "" (by decide)

/-- C3: whenever the filter recomputation succeeds, the filtered view is an
order-preserving sublist of the collection: every record of the view occurs
in the collection, in the same relative order. -/
theorem filtered_view_sublist_of_collection (C : List ResumeData)
    (st sk lo ex : String) (out : List ResumeData)
    (h : applyFilters C st sk lo ex = Except.ok out) :
    out.Sublist C :=
  applyFilters_ok_sublist C st sk lo ex out h

theorem filtered_view_sublist_of_collection_witness :
    List.Sublist [annResume] [annResume, rNoLocation] :=
  filtered_view_sublist_of_collection [annResume, rNoLocation]
    "ann" "" "" "" [annResume] rfl

/-- C4: with all four criterion strings empty, the filtered view equals the
collection. -/
theorem empty_criteria_view_equals_collection (C : List ResumeData) :
    applyFilters C "" "" "" "" = Except.ok C :=
  applyFilters_empty C

/-- C2 counterexample: a record whose personalInfo object is absent is a
record with missing nested fields, yet recomputing with a non-empty location
filter throws (the source reads `resume.personalInfo.location` with no
optional chaining on `personalInfo`) instead of treating the record as
non-matching. -/
theorem missing_personalInfo_location_filter_throws :
    applyFilters [rNoPersonalInfo] "" "" "austin" "" = Except.error () := rfl

/-- C2 amended: for records that conform to the data model, the optional
text fields read through optional chaining — name, email and location — may
be absent without the recomputation throwing, and a record whose location is
absent is treated as non-matching by an active location filter; absence of
the structures read without optional chaining (personalInfo, skills,
experience, entry title and company) is not tolerated. -/
theorem missing_optional_text_fields_tolerated (C : List ResumeData)
    (st sk lo ex : String) (h : ∀ r ∈ C, wfResume r = true) :
    ∃ out, applyFilters C st sk lo ex = Except.ok out ∧
      (lo ≠ "" → ∀ r ∈ out,
        (r.personalInfo.bind PersonalInfo.location).isSome = true) := by
  refine ⟨C.filter (specPass st sk lo ex), applyFilters_wf C st sk lo ex h, ?_⟩
  intro hlo r hr
  have hp := (List.mem_filter.mp hr).2
  simp only [specPass, Bool.and_eq_true, Bool.or_eq_true] at hp
  rcases hp.1.2 with h3 | h3
  · exact absurd (by simpa using h3) hlo
  · unfold locationHit optHit at h3
    cases hl : r.personalInfo.bind PersonalInfo.location with
    | none => rw [hl] at h3; exact absurd h3 (by simp)
    | some loc => rfl

theorem missing_optional_text_fields_tolerated_witness :
    ∃ out, applyFilters [annResume, rNoLocation] "" "" "austin" "" =
        Except.ok out ∧
      (("austin" : String) ≠ "" → ∀ r ∈ out,
        (r.personalInfo.bind PersonalInfo.location).isSome = true) :=
  missing_optional_text_fields_tolerated [annResume, rNoLocation]
    "" "" "austin" "" (by decide)

/-- C5: starting from criteria one of which is empty, making that criterion
non-empty with a value matching no record of the current filtered view never
increases the size of the filtered view. -/
theorem adding_nonmatching_criterion_never_grows (C : List ResumeData)
    (cr : Criteria) (c : Crit) (v : String) (out outExt : List ResumeData)
    (hwf : ∀ r ∈ C, wfResume r = true)
    (hempty : getCrit c cr = "") (hv : v ≠ "")
    (hout : applyCriteria cr C = Except.ok out)
    (hext : applyCriteria (setCrit c v cr) C = Except.ok outExt)
    (hnm : ∀ r ∈ out, critHit c v r = false) :
    outExt.length ≤ out.length := by
  have hA : applyCriteria cr C = Except.ok (C.filter (specPassC cr)) :=
    applyFilters_wf C cr.searchTerm cr.skillFilter cr.locationFilter
      cr.experienceFilter hwf
  have hB : applyCriteria (setCrit c v cr) C =
      Except.ok (C.filter (specPassC (setCrit c v cr))) :=
    applyFilters_wf C (setCrit c v cr).searchTerm
      (setCrit c v cr).skillFilter (setCrit c v cr).locationFilter
      (setCrit c v cr).experienceFilter hwf
  rw [hA] at hout
  rw [hB] at hext
  injection hout with hout
  injection hext with hext
  subst hout
  subst hext
  have hnil : C.filter (specPassC (setCrit c v cr)) = [] := by
    rw [List.eq_nil_iff_forall_not_mem]
    intro r hr
    have hm := List.mem_filter.mp hr
    have hfac := specPass_setCrit cr c v hempty hv r
    rw [hfac, Bool.and_eq_true] at hm
    have hmem : r ∈ C.filter (specPassC cr) :=
      List.mem_filter.mpr ⟨hm.1, hm.2.1⟩
    exact absurd hm.2.2 (by simp [hnm r hmem])
  rw [hnil]
  simp

theorem adding_nonmatching_criterion_never_grows_witness :
    ([] : List ResumeData).length ≤ [annResume].length :=
  adding_nonmatching_criterion_never_grows [annResume]
    { searchTerm := "ann", skillFilter := "", locationFilter := "",
      experienceFilter := "" }
    Crit.skill "java" [annResume] [] (by decide) rfl (by decide) rfl rfl
    (by decide)

/-- C6: switching the filter mode to "all" resets the skill, location and
experience criterion strings to empty and leaves the search term unchanged;
switching to any other mode changes no criterion string, only the mode. -/
theorem filter_mode_change_frame (s : PageState) (v : String) :
    handleFilterTypeChange s v =
      if v = "all" then
        { s with
          filterType := v, skillFilter := "", locationFilter := "",
          experienceFilter := "" }
      else { s with filterType := v } := by
  by_cases hv : v = "all"
  · simp [handleFilterTypeChange, hv]
  · simp [handleFilterTypeChange, hv]

/-- C7: exporting while the filtered view is empty produces exactly one
user-visible notice, the destructive "No Data" toast, and performs no file
generation: nothing is handed to the spreadsheet writer. -/
theorem export_empty_one_notice_no_file (fr : List ResumeData)
    (h : fr.length = 0) :
    handleExport fr =
      [ExportEffect.toastShown
        { title := "No Data", description := "There is no data to export.",
          variant := some "destructive" }] := by
  simp [handleExport, h]

theorem export_empty_one_notice_no_file_witness :
    handleExport [] =
      [ExportEffect.toastShown
        { title := "No Data", description := "There is no data to export.",
          variant := some "destructive" }] :=
  export_empty_one_notice_no_file [] rfl

/-- C8: exporting a non-empty filtered view hands the flattened rows of
exactly the filtered view — one row per record, in order — to the
spreadsheet writer under the deterministic filename all-resumes.xlsx and the
fixed sheet label Resumes, then reports success with the record count. -/
theorem export_nonempty_hands_rows (fr : List ResumeData) (h : fr ≠ []) :
    handleExport fr =
      [ExportEffect.excelFile (prepareResumeDataForExcel fr)
        "all-resumes.xlsx" "Resumes",
       ExportEffect.toastShown
        { title := "Success",
          description := "Successfully exported " ++ toString fr.length ++
            " resumes to Excel.",
          variant := none }] ∧
      prepareResumeDataForExcel fr = fr.map flattenResume ∧
      (prepareResumeDataForExcel fr).length = fr.length := by
  refine ⟨?_, rfl, by simp [prepareResumeDataForExcel]⟩
  have hl : fr.length ≠ 0 := by simpa [List.length_eq_zero] using h
  simp [handleExport, hl]

theorem export_nonempty_hands_rows_witness :
    handleExport [annResume] =
      [ExportEffect.excelFile (prepareResumeDataForExcel [annResume])
        "all-resumes.xlsx" "Resumes",
       ExportEffect.toastShown
        { title := "Success",
          description := "Successfully exported " ++
            toString (List.length [annResume]) ++ " resumes to Excel.",
          variant := none }] ∧
      prepareResumeDataForExcel [annResume] = [annResume].map flattenResume ∧
      (prepareResumeDataForExcel [annResume]).length =
        List.length [annResume] :=
  export_nonempty_hands_rows [annResume] (List.cons_ne_nil _ _)

/-- C9: the fetch handler, run from the initial state: on failure the error
is logged to the console channel, the collection and the filtered view stay
empty and no toast is produced; on success the collection is populated with
the fetched data, the filtered view is initialized to the same contents and
again no toast is produced. -/
theorem fetch_initial_outcomes (res : Except String (List ResumeData)) :
    (fetchResumes initState res).toasts = [] ∧
    (fetchResumes initState res).state.resumes =
      (fetchResumes initState res).state.filteredResumes ∧
    fetchResumes initState res =
      match res with
      | Except.ok data =>
        { state :=
            { initState with resumes := data, filteredResumes := data },
          consoleErrors := [], toasts := [] }
      | Except.error e =>
        { state := initState,
          consoleErrors := ["Error fetching resumes: " ++ e],
          toasts := [] } := by
  cases res <;> exact ⟨rfl, rfl, rfl⟩

/-- C10: the clear-filters action resets all four criterion strings to empty
and the filter mode to "all", and the recomputation that follows makes the
filtered view equal the full collection. -/
theorem clear_filters_resets_all (s : PageState) :
    (clearFilters s).searchTerm = "" ∧
    (clearFilters s).skillFilter = "" ∧
    (clearFilters s).locationFilter = "" ∧
    (clearFilters s).experienceFilter = "" ∧
    (clearFilters s).filterType = "all" ∧
    recomputeFiltered (clearFilters s) =
      Except.ok { clearFilters s with filteredResumes := s.resumes } :=
  ⟨rfl, rfl, rfl, rfl, rfl, rfl⟩
